import Mathlib

/-
Shallow embedding of pyoperant's trial/block scheduling and adaptive-queue
engine (pyoperant/queues.py and pyoperant/blocks.py).

Python objects become Lean structures; mutation becomes explicit state
passing.  A method that can raise returns a pair of an `Except QErr` result
and the post-call state (Python exceptions leave any mutations performed
before the raise in place, which the returned state reflects).  Randomness
is modelled by an oracle stream `r : ℕ → ℚ` of uniform [0,1) draws together
with a cursor: `random.random()` reads one draw, `random.randrange(n)` reads
one draw q and yields `⌊q * n⌋` (raising ValueError when `n <= 0`, as Python
does for an empty range).
-/

namespace PyOperant

/-- Exception outcomes of the Python code: `usage` is the
"hasn't been updated since last trial" Exception raised by
AdaptiveBase.next, `stop` is StopIteration, the rest mirror the
builtin Python exception classes.  `outOfFuel` is an artefact of the
fuel-based embedding of the recursive DoubleStaircaseReinforced.next
and is never returned for sufficiently large fuel. -/
inductive QErr where
  | usage
  | stop
  | valueError
  | zeroDivisionError
  | keyError
  | indexError
  | notImplemented
  | outOfFuel
  deriving DecidableEq, Repr

/-- Python list read `l[i]` with negative-index wraparound: an index
`i < 0` is taken as `i + len(l)`; an index outside `[0, len)` after
that normalization raises IndexError. -/
def pyListGet {α : Type} (l : List α) (i : ℤ) : Except QErr α :=
  let j : ℤ := if i < 0 then i + l.length else i
  if h : 0 ≤ j ∧ j < (l.length : ℤ) then
    .ok (l.get ⟨j.toNat, by omega⟩)
  else
    .error .indexError

/-- Python list element assignment `l[i] = a`, same index normalization
as `pyListGet`. -/
def pyListSet {α : Type} (l : List α) (i : ℤ) (a : α) : Except QErr (List α) :=
  let j : ℤ := if i < 0 then i + l.length else i
  if 0 ≤ j ∧ j < (l.length : ℤ) then
    .ok (l.set j.toNat a)
  else
    .error .indexError

/-- Python `random.randrange(n)` driven by one oracle draw `q ∈ [0,1)`:
yields `⌊q * n⌋`, raising ValueError on an empty range (`n <= 0`). -/
def pyRandrange (n : ℤ) (q : ℚ) : Except QErr ℤ :=
  if n ≤ 0 then .error .valueError else .ok (Int.floor (q * (n : ℚ)))

/-- Python `int()` truncation toward zero of a rational. -/
def pyTrunc (q : ℚ) : ℤ :=
  if 0 ≤ q then Int.floor q else -Int.floor (-q)

/-- Trial dictionary returned by the double-staircase queues:
`\x7b'class': ..., 'stim_name': ...\x7d` in the source. -/
structure TrialDict where
  stim_class : String
  stim_name : String
  deriving DecidableEq, Repr

/-- One call `np.random.choice(items, p=ws)` (queues.py line 38) on a
non-empty item list, driven by the oracle pick `j`: numpy raises
ValueError when the probability vector has the wrong length or a
negative entry (after the exact rational normalization the entries sum
to 1 whenever the original sum was nonzero, so the sum-to-one check
cannot fire separately); otherwise one item is returned. -/
def np_random_choice {α : Type} (items : List α) (ws : List ℚ) (j : ℕ)
    (h : items.length ≠ 0) : Except QErr α :=
  if ws.length = items.length ∧ ∀ w ∈ ws, 0 ≤ w then
    .ok (items.get ⟨j % items.length, Nat.mod_lt _ (Nat.pos_of_ne_zero h)⟩)
  else
    .error .valueError

/-- random_queue (queues.py lines 10-39): generator which randomly
samples items with replacement.  The generator body up to its first
yield point is the construction: the `len(items) == 0` ValueError check,
then weight normalization `[float(ww) / sum(weights) for ww in weights]`
— which raises ZeroDivisionError when the caller-supplied weight list is
non-empty and sums to 0 (an empty weight list performs no division).
The produced lazy sequence is embedded as a function from the iteration
counter `ii` to `Option (Except QErr item)`: `none` past the `max_items`
bound, otherwise the outcome of that iteration's `np.random.choice`
call, which raises ValueError for a malformed weight vector. -/
def random_queue {α : Type} (items : List α) (weights : Option (List ℚ))
    (max_items : Option ℕ) (pick : ℕ → ℕ) :
    Except QErr (List ℚ × (ℕ → Option (Except QErr α))) :=
  if hlen : items.length = 0 then
    .error .valueError
  else
    let stream : List ℚ → ℕ → Option (Except QErr α) := fun ws ii =>
      match max_items with
      | some m =>
          if ii < m then some (np_random_choice items ws (pick ii) hlen) else none
      | none => some (np_random_choice items ws (pick ii) hlen)
    match weights with
    | none =>
        .ok (List.replicate items.length (1 / (items.length : ℚ)),
          stream (List.replicate items.length (1 / (items.length : ℚ))))
    | some ws0 =>
        if ws0.length ≠ 0 ∧ ws0.sum = 0 then
          .error .zeroDivisionError
        else
          .ok (ws0.map (fun w => w / ws0.sum),
            stream (ws0.map (fun w => w / ws0.sum)))

/-- KaernbachStaircase (queues.py lines 135-194).  `val` and the step
sizes are modelled as rationals, `counter` and `crit` as integers;
`updated` is the AdaptiveBase handshake flag (initialized true). -/
structure KaernbachStaircase where
  updated : Bool
  val : ℚ
  stepsize_up : ℚ
  stepsize_dn : ℚ
  min_val : Option ℚ
  max_val : Option ℚ
  crit : ℤ
  crit_method : String
  counter : ℤ
  going_up : Bool
  deriving DecidableEq, Repr

namespace KaernbachStaircase

/-- KaernbachStaircase.__init__ (queues.py lines 153-171); the superclass
AdaptiveBase.__init__ sets `updated = True` (no update needed before the
first trial). -/
def init (start_val stepsize_up stepsize_dn : ℚ) (min_val max_val : Option ℚ)
    (crit : ℤ) (crit_method : String) : KaernbachStaircase :=
  { updated := true
    val := start_val
    stepsize_up := stepsize_up
    stepsize_dn := stepsize_dn
    min_val := min_val
    max_val := max_val
    crit := crit
    crit_method := crit_method
    counter := 0
    going_up := false }

/-- Rails clamp of KaernbachStaircase.update (queues.py lines 183-187):
the `if (max_val != None) and (val > max_val) ... elif (min_val != None)
and (val < min_val) ...` chain. -/
def clampRails (max_val min_val : Option ℚ) (v : ℚ) : ℚ :=
  match max_val, min_val with
  | some mx, some mn => if v > mx then mx else if v < mn then mn else v
  | some mx, none => if v > mx then mx else v
  | none, some mn => if v < mn then mn else v
  | none, none => v

/-- KaernbachStaircase.update (queues.py lines 173-187).  The inherited
AdaptiveBase.update first sets `updated = True` (KaernbachStaircase's
`no_response` hook is the inherited no-op); the value then moves by
`-stepsize_dn` on correct or `+stepsize_up` on incorrect, the reversal
counter is maintained when `crit_method == 'reversals'`, and finally the
value is clamped at the rails. -/
def update (s : KaernbachStaircase) (correct no_resp : Bool) : KaernbachStaircase :=
  let s := { s with updated := true }
  let _ := no_resp
  let s := { s with val := s.val + (if correct then -s.stepsize_dn else s.stepsize_up) }
  let s :=
    if s.crit_method = "reversals" then
      if correct = s.going_up then
        { s with counter := s.counter + 1, going_up := !s.going_up }
      else s
    else s
  { s with val := clampRails s.max_val s.min_val s.val }

/-- KaernbachStaircase.next (queues.py lines 189-194).  The inherited
AdaptiveBase.next raises the usage error when `updated` is false and
otherwise sets `updated = False`; then StopIteration is raised once
`counter > crit`, the counter advances when `crit_method == 'trials'`,
and the current value is returned.  The state paired with an error is
the object state at the moment of the raise. -/
def next (s : KaernbachStaircase) : (Except QErr ℚ) × KaernbachStaircase :=
  if !s.updated then (.error .usage, s)
  else
    let s := { s with updated := false }
    if s.counter > s.crit then (.error .stop, s)
    else
      let s := { s with counter := s.counter + (if s.crit_method = "trials" then 1 else 0) }
      (.ok s.val, s)

/-- AdaptiveBase.on_load as inherited by KaernbachStaircase
(queues.py lines 95-101): re-arm `updated = True`; the `no_response`
hook is the inherited no-op. -/
def on_load (s : KaernbachStaircase) : KaernbachStaircase :=
  { s with updated := true }

/-- Fold of a sequence of `(correct, no_resp)` outcome reports through
`update`. -/
def runUpdates (s : KaernbachStaircase) (l : List (Bool × Bool)) : KaernbachStaircase :=
  l.foldl (fun s cn => s.update cn.1 cn.2) s

end KaernbachStaircase

/-- DoubleStaircase (queues.py lines 196-245): bisection threshold
estimate over an ordered stimulus list.  `trial` models the `self.trial`
dict: `none` for the empty dict, `some (low, value)` for
`\x7b'low': low, 'value': value\x7d`.  (The `update_error_str` message built
from `stims[0]` in `__init__` is not modelled; errors are reported as
`QErr` tags.) -/
structure DoubleStaircase where
  updated : Bool
  stims : List String
  rate_constant : ℚ
  low_idx : ℤ
  high_idx : ℤ
  trial : Option (Bool × ℤ)
  deriving DecidableEq, Repr

namespace DoubleStaircase

/-- DoubleStaircase.__init__ (queues.py lines 210-217). -/
def init (stims : List String) (rate_constant : ℚ) : DoubleStaircase :=
  { updated := true
    stims := stims
    rate_constant := rate_constant
    low_idx := 0
    high_idx := (stims.length : ℤ) - 1
    trial := none }

/-- DoubleStaircase.no_response (queues.py lines 243-245): clears the
pending trial dict. -/
def no_response (s : DoubleStaircase) : DoubleStaircase :=
  { s with trial := none }

/-- Step size of DoubleStaircase.next (queues.py line 233):
`delta = int(np.ceil((high_idx - low_idx) * rate_constant))`, exact for
the nonnegative integral value np.ceil yields there. -/
def delta (s : DoubleStaircase) : ℤ :=
  Int.ceil (((s.high_idx - s.low_idx : ℤ) : ℚ) * s.rate_constant)

/-- DoubleStaircase.update (queues.py lines 219-226).  The inherited
AdaptiveBase.update sets `updated = True` and, on `no_resp`, invokes
`no_response` (clearing the pending trial); on a correct response the
probed bound moves to the probed value.  Reading `self.trial['low']`
when the dict is empty raises KeyError, leaving the mutations made so
far in place. -/
def update (s : DoubleStaircase) (correct no_resp : Bool) :
    (Except QErr Unit) × DoubleStaircase :=
  let s := { s with updated := true }
  let s := if no_resp then s.no_response else s
  if correct then
    match s.trial with
    | none => (.error .keyError, s)
    | some (low, value) =>
        let s := if low then { s with low_idx := value } else { s with high_idx := value }
        (.ok (), { s with trial := none })
  else
    (.ok (), { s with trial := none })

/-- DoubleStaircase.next (queues.py lines 228-241).  The inherited
AdaptiveBase.next raises the usage error when `updated` is false and
otherwise sets `updated = False`; StopIteration is raised once
`high_idx - low_idx <= 1`; otherwise
`delta = int(np.ceil((high_idx - low_idx) * rate_constant))` and one coin
draw picks the low side (`< .5`, class 'L') or the high side (class 'R'),
recording the probed side and index in `trial` before the stimulus list
lookup. -/
def next (s : DoubleStaircase) (r : ℕ → ℚ) (k : ℕ) :
    (Except QErr TrialDict) × DoubleStaircase × ℕ :=
  if !s.updated then (.error .usage, s, k)
  else
    let s := { s with updated := false }
    if s.high_idx - s.low_idx ≤ 1 then (.error .stop, s, k)
    else
      let delta : ℤ := s.delta
      if r k < 1 / 2 then
        let s := { s with trial := some (true, s.low_idx + delta) }
        match pyListGet s.stims (s.low_idx + delta) with
        | .ok name => (.ok ⟨"L", name⟩, s, k + 1)
        | .error e => (.error e, s, k + 1)
      else
        let s := { s with trial := some (false, s.high_idx - delta) }
        match pyListGet s.stims (s.high_idx - delta) with
        | .ok name => (.ok ⟨"R", name⟩, s, k + 1)
        | .error e => (.error e, s, k + 1)

/-- AdaptiveBase.on_load as inherited by DoubleStaircase (queues.py
lines 95-101): re-arm `updated = True`, then `no_response` clears any
pending trial. -/
def on_load (s : DoubleStaircase) : DoubleStaircase :=
  ({ s with updated := true }).no_response

/-- One converging round: `next` followed by a correct (`correct = True`,
`no_resp = False`) `update`.  When either call raises, the state at the
raise is kept and the run stalls there (the gap is unchanged in that
case since `next` raises before touching the indices). -/
def runCorrect (r : ℕ → ℚ) : ℕ → DoubleStaircase × ℕ → DoubleStaircase × ℕ
  | 0, sk => sk
  | n + 1, (s, k) =>
    match s.next r k with
    | (.ok _, s1, k1) =>
        match s1.update true false with
        | (.ok _, s2) => runCorrect r n (s2, k1)
        | (.error _, s2) => (s2, k1)
    | (.error _, s1, k1) => (s1, k1)

end DoubleStaircase

/-- DoubleStaircaseReinforced (queues.py lines 247-307): wraps a
DoubleStaircase, mixing bisection probes (fraction `probe_rate`) with
easy reinforcement trials sampled outside the current bracket. -/
structure DoubleStaircaseReinforced where
  updated : Bool
  dblstaircase : DoubleStaircase
  stims : List String
  probe_rate : ℚ
  sample_log : Bool
  last_probe : Bool
  deriving DecidableEq, Repr

namespace DoubleStaircaseReinforced

/-- DoubleStaircaseReinforced.__init__ (queues.py lines 259-266). -/
def init (stims : List String) (rate_constant probe_rate : ℚ) (sample_log : Bool) :
    DoubleStaircaseReinforced :=
  { updated := true
    dblstaircase := DoubleStaircase.init stims rate_constant
    stims := stims
    probe_rate := probe_rate
    sample_log := sample_log
    last_probe := false }

/-- DoubleStaircaseReinforced.update (queues.py lines 268-272): the
inherited AdaptiveBase.update sets `updated = True` and on `no_resp`
invokes `no_response` (which resets `last_probe`); the inner staircase
is updated only when the last trial was a probe; finally `last_probe`
is reset. -/
def update (s : DoubleStaircaseReinforced) (correct no_resp : Bool) :
    (Except QErr Unit) × DoubleStaircaseReinforced :=
  let s := { s with updated := true }
  let s := if no_resp then { s with last_probe := false } else s
  if s.last_probe then
    match s.dblstaircase.update correct no_resp with
    | (.ok _, d) => (.ok (), { s with dblstaircase := d, last_probe := false })
    | (.error e, d) => (.error e, { s with dblstaircase := d })
  else
    (.ok (), { s with last_probe := false })

/-- DoubleStaircaseReinforced.next (queues.py lines 274-299), embedded
with a fuel parameter for the `return self.next()` recursion in the
except-StopIteration branch (`outOfFuel` is never the result for
sufficiently large fuel).  Draw `r k` selects probe vs easy; a probe
delegates to the inner staircase, and on StopIteration sets
`probe_rate = 0`, resets `last_probe` and recurses.  An easy trial uses
draw `r (k+1)` as the left/right coin and draw `r (k+2)` either for
`random.randrange` or as the value of `rand_from_log_shape_dist()`.
`rand_from_log_shape_dist` lives in pyoperant/utils.py, which is not
part of the sources here; modelled from the spec: a monotonic transform
of a uniform variate concentrating mass near the endpoints — embedded
as an opaque oracle draw in [0,1]. -/
def next : ℕ → DoubleStaircaseReinforced → (ℕ → ℚ) → ℕ →
    (Except QErr TrialDict) × DoubleStaircaseReinforced × ℕ
  | 0, s, _, k => (.error .outOfFuel, s, k)
  | fuel + 1, s, r, k =>
    if !s.updated then (.error .usage, s, k)
    else
      let s := { s with updated := false }
      if r k < s.probe_rate then
        match s.dblstaircase.next r (k + 1) with
        | (.ok ret, d, k2) => (.ok ret, { s with dblstaircase := d, last_probe := true }, k2)
        | (.error QErr.stop, d, k2) =>
            next fuel { s with dblstaircase := d, probe_rate := 0, last_probe := false } r k2
        | (.error e, d, k2) => (.error e, { s with dblstaircase := d }, k2)
      else
        let s := { s with last_probe := false }
        if r (k + 1) < 1 / 2 then
          if s.sample_log then
            let val : ℤ := pyTrunc ((1 - r (k + 2)) * (s.dblstaircase.low_idx : ℚ))
            match pyListGet s.stims val with
            | .ok name => (.ok ⟨"L", name⟩, s, k + 3)
            | .error e => (.error e, s, k + 3)
          else
            match pyRandrange s.dblstaircase.low_idx (r (k + 2)) with
            | .error e => (.error e, s, k + 3)
            | .ok val =>
                match pyListGet s.stims val with
                | .ok name => (.ok ⟨"L", name⟩, s, k + 3)
                | .error e => (.error e, s, k + 3)
        else
          if s.sample_log then
            let val : ℤ := s.dblstaircase.high_idx +
              pyTrunc (r (k + 2) * ((s.stims.length : ℤ) - s.dblstaircase.high_idx : ℚ))
            match pyListGet s.stims val with
            | .ok name => (.ok ⟨"R", name⟩, s, k + 3)
            | .error e => (.error e, s, k + 3)
          else
            match pyRandrange ((s.stims.length : ℤ) - s.dblstaircase.high_idx) (r (k + 2)) with
            | .error e => (.error e, s, k + 3)
            | .ok rg =>
                let val : ℤ := s.dblstaircase.high_idx + rg
                match pyListGet s.stims val with
                | .ok name => (.ok ⟨"R", name⟩, s, k + 3)
                | .error e => (.error e, s, k + 3)

/-- DoubleStaircaseReinforced.on_load (queues.py lines 305-307): the
inherited AdaptiveBase.on_load re-arms `updated = True` and invokes
`no_response` (queues.py lines 301-303, resetting `last_probe`); then
the inner staircase's own on_load hook runs. -/
def on_load (s : DoubleStaircaseReinforced) : DoubleStaircaseReinforced :=
  { s with
    updated := true
    last_probe := false
    dblstaircase := s.dblstaircase.on_load }

end DoubleStaircaseReinforced

/-- MixedAdaptiveQueue (queues.py lines 310-356): serves conditions from
multiple adaptive sub-queues.  The sub-queue type is a parameter `σ`
together with the behavior functions of its `next`/`update` methods
(the Python list is heterogeneous and duck-typed).  Persistence
(PersistentBase mixin) is modelled by returning, alongside the state,
the snapshot written by `self.save()` — pickling dumps the whole object,
so a written snapshot is the post-call state itself. -/
structure MixedAdaptiveQueue (σ : Type) where
  updated : Bool
  sub_queues : List σ
  probabilities : Option (List ℚ)
  sub_queue_idx : ℤ
  deriving DecidableEq, Repr

namespace MixedAdaptiveQueue

/-- MixedAdaptiveQueue.__init__ (queues.py lines 324-330): AdaptiveBase
sets `updated = True`, `sub_queue_idx` starts at -1, and the fresh
object immediately saves itself (both in PersistentBase.__init__ and in
the final `self.save()`); the snapshot written is the second component. -/
def init {σ : Type} (sub_queues : List σ) (probabilities : Option (List ℚ)) :
    MixedAdaptiveQueue σ × MixedAdaptiveQueue σ :=
  let s : MixedAdaptiveQueue σ :=
    { updated := true
      sub_queues := sub_queues
      probabilities := probabilities
      sub_queue_idx := -1 }
  (s, s)

/-- MixedAdaptiveQueue.update (queues.py lines 332-335): the inherited
AdaptiveBase.update sets `updated = True` (the `no_response` hook is the
inherited no-op); then `self.sub_queues[self.sub_queue_idx]` — Python
negative indexing included — is updated in place, and the whole object
is re-saved.  The third component is the snapshot written by that save
(`none` when an exception fires first). -/
def update {σ : Type} (subUpd : σ → Bool → Bool → (Except QErr Unit) × σ)
    (s : MixedAdaptiveQueue σ) (correct no_resp : Bool) :
    (Except QErr Unit) × MixedAdaptiveQueue σ × Option (MixedAdaptiveQueue σ) :=
  let s := { s with updated := true }
  match pyListGet s.sub_queues s.sub_queue_idx with
  | .error e => (.error e, s, none)
  | .ok sub =>
      match subUpd sub correct no_resp with
      | (.error e, sub2) =>
          match pyListSet s.sub_queues s.sub_queue_idx sub2 with
          | .ok qs => (.error e, { s with sub_queues := qs }, none)
          | .error e2 => (.error e2, s, none)
      | (.ok _, sub2) =>
          match pyListSet s.sub_queues s.sub_queue_idx sub2 with
          | .ok qs =>
              let s2 := { s with sub_queues := qs }
              (.ok (), s2, some s2)
          | .error e2 => (.error e2, s, none)

/-- MixedAdaptiveQueue.next (queues.py lines 337-348): the inherited
AdaptiveBase.next raises the usage error when `updated` is false and
otherwise sets `updated = False`.  With `probabilities` None, a
sub-queue index is drawn by `random.randrange(len(sub_queues))` and that
sub-queue's `next` is delegated to; its StopIteration is converted to
NotImplementedError.  With `probabilities` set, NotImplementedError is
raised directly. -/
def next {σ τ : Type} (subNext : σ → (Except QErr τ) × σ)
    (s : MixedAdaptiveQueue σ) (r : ℕ → ℚ) (k : ℕ) :
    (Except QErr τ) × MixedAdaptiveQueue σ × ℕ :=
  if !s.updated then (.error .usage, s, k)
  else
    let s := { s with updated := false }
    match s.probabilities with
    | none =>
        match pyRandrange ((s.sub_queues.length : ℤ)) (r k) with
        | .error e => (.error e, s, k + 1)
        | .ok idx =>
            let s := { s with sub_queue_idx := idx }
            match pyListGet s.sub_queues idx with
            | .error e => (.error e, s, k + 1)
            | .ok sub =>
                match subNext sub with
                | (.ok v, sub2) =>
                    match pyListSet s.sub_queues idx sub2 with
                    | .ok qs => (.ok v, { s with sub_queues := qs }, k + 1)
                    | .error e2 => (.error e2, s, k + 1)
                | (.error QErr.stop, sub2) =>
                    match pyListSet s.sub_queues idx sub2 with
                    | .ok qs => (.error .notImplemented, { s with sub_queues := qs }, k + 1)
                    | .error e2 => (.error e2, s, k + 1)
                | (.error e, sub2) =>
                    match pyListSet s.sub_queues idx sub2 with
                    | .ok qs => (.error e, { s with sub_queues := qs }, k + 1)
                    | .error e2 => (.error e2, s, k + 1)
    | some _ => (.error .notImplemented, s, k + 1)

/-- MixedAdaptiveQueue.on_load (queues.py lines 350-356): the MRO climbs
PersistentBase.on_load to AdaptiveBase.on_load (re-arming `updated`,
with the no-op `no_response` hook), then every sub-queue's own on_load
hook is invoked in place.  The sub-queue hook is a parameter, matching
the duck-typed sub-queue embedding. -/
def on_load {σ : Type} (subOnLoad : σ → σ) (s : MixedAdaptiveQueue σ) :
    MixedAdaptiveQueue σ :=
  let s := { s with updated := true }
  { s with sub_queues := s.sub_queues.map subOnLoad }

end MixedAdaptiveQueue

namespace PersistentBase

/-- PersistentBase.save (queues.py lines 130-132): pickles the whole
object; the snapshot is the state itself. -/
def save {σ : Type} (s : σ) : σ := s

/-- PersistentBase.load (queues.py lines 114-122) in the case where the
snapshot file exists: unpickle the object and invoke its `on_load`
hook. -/
def load {σ : Type} (on_load : σ → σ) (snapshot : σ) : σ :=
  on_load snapshot

end PersistentBase

/-- BaseHandler (queues.py lines 359-417): adapts a queue into a
one-item-lookahead iteration protocol.  The underlying generator is
embedded as the list of items it will still yield; `ondeck` is the
`_ondeck` buffer.  Items the generator yields are `some`-wrapped, so the
Python `is None` test on `_ondeck` corresponds to the `Option` being
`none`. -/
structure BaseHandler (α : Type) where
  queue : List α
  consumed : Bool
  ondeck : Option α
  deriving DecidableEq, Repr

namespace BaseHandler

/-- BaseHandler.__init__ (queues.py lines 380-391): `consumed = False`
and the first item is eagerly pulled into `_ondeck`; a StopIteration
from that pull (empty queue) propagates out of the constructor.
`reset` (lines 393-397) rebuilds the generator from the stored
constructor arguments and re-runs this same priming, so it is this
function again. -/
def init {α : Type} (genItems : List α) : Except QErr (BaseHandler α) :=
  match genItems with
  | [] => .error .stop
  | x :: rest => .ok { queue := rest, consumed := false, ondeck := some x }

/-- BaseHandler.__next__ (queues.py lines 399-411): raise StopIteration
when `_ondeck` is None; otherwise return the buffered item after
attempting to refill the buffer, converting the underlying generator's
StopIteration into `consumed = True` and an empty buffer. -/
def next {α : Type} (h : BaseHandler α) : (Except QErr α) × BaseHandler α :=
  match h.ondeck with
  | none => (.error .stop, h)
  | some item =>
      match h.queue with
      | [] => (.ok item, { h with consumed := true, ondeck := none })
      | y :: rest => (.ok item, { h with queue := rest, ondeck := some y })

/-- Reachable states of a handler: freshly constructed (or reset), or
the result of a successful pull (a failing pull returns the state
unchanged). -/
inductive Reachable {α : Type} : BaseHandler α → Prop where
  | init (items : List α) (h : BaseHandler α) :
      BaseHandler.init items = .ok h → Reachable h
  | step (h h' : BaseHandler α) (x : α) :
      Reachable h → h.next = (.ok x, h') → Reachable h'

end BaseHandler

/-- Trial value object. Modelled from the spec: pyoperant/trials.py is
not among the sources; section 3 of the spec defines a Trial as the
ephemeral record `\x7bindex, condition-reference, block-reference\x7d`
whose `index` field the MixedBlockHandler overwrites with its global
counter (the block reference plays no role in the claims and is
omitted). -/
structure Trial (α : Type) where
  condition : α
  index : ℕ
  deriving DecidableEq, Repr

/-- MixedBlockHandler (blocks.py lines 165-229): named blocks with one
independent iterator per name and a handler-global trial counter.  A
block's iterator is embedded as the list of conditions it will still
yield (Block.__next__ wraps each pulled condition in a Trial whose
block-local index `next_trial` immediately overwrites with the global
counter, so the block-local counter is not represented). -/
structure MixedBlockHandler (α : Type) where
  iters : List (String × List α)
  trial_index : ℕ
  deriving DecidableEq, Repr

namespace MixedBlockHandler

/-- Python dict read `self._iters[block_name]`: first binding with the
given name, KeyError when absent (modelled at the call site). -/
def lookupIter {α : Type} (l : List (String × List α)) (name : String) :
    Option (List α) :=
  (l.find? (fun p => p.1 = name)).map Prod.snd

/-- Replacement of the named iterator by its advanced remainder. -/
def setIter {α : Type} (l : List (String × List α)) (name : String)
    (v : List α) : List (String × List α) :=
  l.map (fun p => if p.1 = name then (p.1, v) else p)

/-- MixedBlockHandler.reset (blocks.py lines 186-202): rebuild every
iterator from its block and zero the global trial counter. -/
def reset {α : Type} (blocks : List (String × List α)) : MixedBlockHandler α :=
  { iters := blocks, trial_index := 0 }

/-- MixedBlockHandler.next_trial (blocks.py lines 222-229): increment
the handler-global trial counter FIRST, then pull from the named
block's iterator (KeyError for an unknown name, StopIteration from an
exhausted block — both after the increment), and stamp the pulled trial
with the counter value. -/
def next_trial {α : Type} (h : MixedBlockHandler α) (name : String) :
    (Except QErr (Trial α)) × MixedBlockHandler α :=
  let h1 : MixedBlockHandler α := { h with trial_index := h.trial_index + 1 }
  match lookupIter h1.iters name with
  | none => (.error .keyError, h1)
  | some [] => (.error .stop, h1)
  | some (c :: rest) =>
      (.ok { condition := c, index := h1.trial_index },
       { h1 with iters := setIter h1.iters name rest })

/-- Run a list of named `next_trial` calls, collecting the indices of
the returned trials; `none` as soon as any call raises. -/
def runCalls {α : Type} (h : MixedBlockHandler α) : List String → Option (List ℕ)
  | [] => some []
  | name :: rest =>
      match h.next_trial name with
      | (.ok t, h1) => (h1.runCalls rest).map (fun l => t.index :: l)
      | (.error _, _) => none

end MixedBlockHandler

/-! Concrete instances used by witnesses and counterexamples. -/

/-- Kaernbach staircase at the documented defaults:
start 100, step up 3, step down 1, bounds [0, 100], crit 100, trials. -/
def KSex : KaernbachStaircase :=
  KaernbachStaircase.init 100 3 1 (some 0) (some 100) 100 "trials"

/-- Double staircase over four stimuli at rate constant 1/20. -/
def DSex : DoubleStaircase :=
  DoubleStaircase.init ["a", "b", "c", "d"] (1 / 20)

/-- Reinforced double staircase over two stimuli: the inner bracket is
[0, 1], already adjacent, so the inner staircase raises StopIteration on
its first probe. -/
def DSRex : DoubleStaircaseReinforced :=
  DoubleStaircaseReinforced.init ["a", "b"] (1 / 20) (1 / 10) false

/-- Reinforced double staircase over four stimuli, fresh bracket
[0, 3]. -/
def DSRex4 : DoubleStaircaseReinforced :=
  DoubleStaircaseReinforced.init ["a", "b", "c", "d"] (1 / 20) (1 / 10) false

/-- Oracle stream selecting: easy trial (draw 1/2 ≥ probe_rate 1/10),
right side (3/4 ≥ 1/2), then randrange draw 0. -/
def rEasyRight : ℕ → ℚ := fun i => [(1 : ℚ) / 2, 3 / 4, 0].getD i (1 / 2)

/-- Oracle stream selecting: easy trial, left side (0 < 1/2), then
randrange draw 0. -/
def rEasyLeft : ℕ → ℚ := fun i => [(1 : ℚ) / 2, 0, 0].getD i (1 / 2)

/-- Mixed block handler with a one-trial block "A" and a two-trial
block "B". -/
def MBHex : MixedBlockHandler ℕ :=
  MixedBlockHandler.reset [("A", [10]), ("B", [20, 21])]

/-! Helper lemmas. -/

/-- One Kaernbach update keeps the bounds fields and, when both rails
are set with `mn ≤ mx`, leaves the value inside [mn, mx]. -/
theorem KaernbachStaircase.update_bounded (s : KaernbachStaircase) (mn mx : ℚ)
    (c n : Bool) (hmn : s.min_val = some mn) (hmx : s.max_val = some mx)
    (hle : mn ≤ mx) :
    (s.update c n).min_val = some mn ∧ (s.update c n).max_val = some mx ∧
      mn ≤ (s.update c n).val ∧ (s.update c n).val ≤ mx := by
  by_cases h1 : s.crit_method = "reversals" <;>
    by_cases h2 : c = s.going_up <;>
    simp only [KaernbachStaircase.update, KaernbachStaircase.clampRails,
      h1, h2, hmn, hmx, if_true, if_false, ite_true, ite_false] <;>
    refine ⟨trivial, trivial, ?_, ?_⟩ <;>
    (repeat' split) <;> simp_all

/-- C5: for a KaernbachStaircase whose value lies between its two set
rails, the value is still between the rails (and the rails themselves
are unchanged) after any sequence of `update` calls with any
correct/no-response pattern. -/
theorem kaernbach_value_stays_clamped (s : KaernbachStaircase) (mn mx : ℚ)
    (hmn : s.min_val = some mn) (hmx : s.max_val = some mx)
    (h1 : mn ≤ s.val) (h2 : s.val ≤ mx) (l : List (Bool × Bool)) :
    mn ≤ (s.runUpdates l).val ∧ (s.runUpdates l).val ≤ mx := by
  induction l generalizing s with
  | nil => exact ⟨h1, h2⟩
  | cons cn rest ih =>
      have hstep := KaernbachStaircase.update_bounded s mn mx cn.1 cn.2 hmn hmx
        (le_trans h1 h2)
      have hr : (s.update cn.1 cn.2).runUpdates rest
          = s.runUpdates (cn :: rest) := rfl
      rw [← hr]
      exact ih (s.update cn.1 cn.2) hstep.1 hstep.2.1 hstep.2.2.1 hstep.2.2.2

/-- Witness for C5: the documented staircase (start 100, bounds
[0, 100]) stays within [0, 100] across a concrete mixed
correct/incorrect/no-response update sequence. -/
theorem kaernbach_value_stays_clamped_witness :
    KSex.min_val = some 0 ∧ KSex.max_val = some 100 ∧
      (0 : ℚ) ≤ KSex.val ∧ KSex.val ≤ 100 ∧
      (0 : ℚ) ≤ (KSex.runUpdates
          [(true, false), (false, false), (false, false), (true, true)]).val ∧
      (KSex.runUpdates
          [(true, false), (false, false), (false, false), (true, true)]).val ≤ 100 := by
  have h := kaernbach_value_stays_clamped KSex 0 100 rfl rfl (by decide)
    (by decide) [(true, false), (false, false), (false, false), (true, true)]
  exact ⟨rfl, rfl, by decide, by decide, h.1, h.2⟩

/-- Successful pyRandrange yields no error other than ValueError. -/
theorem pyRandrange_error {n : ℤ} {q : ℚ} {e : QErr}
    (h : pyRandrange n q = .error e) : e = QErr.valueError := by
  unfold pyRandrange at h
  split at h <;> simp_all

/-- A failing Python list read raises IndexError only. -/
theorem pyListGet_error {α : Type} {l : List α} {i : ℤ} {e : QErr}
    (h : pyListGet l i = .error e) : e = QErr.indexError := by
  unfold pyListGet at h
  dsimp only at h
  repeat' split at h
  all_goals simp_all

/-- A failing Python list write raises IndexError only. -/
theorem pyListSet_error {α : Type} {l : List α} {i : ℤ} {a : α} {e : QErr}
    (h : pyListSet l i a = .error e) : e = QErr.indexError := by
  unfold pyListSet at h
  dsimp only at h
  repeat' split at h
  all_goals simp_all

/-- A successful Python list read returns an element of the list. -/
theorem pyListGet_mem {α : Type} {l : List α} {i : ℤ} {a : α}
    (h : pyListGet l i = .ok a) : a ∈ l := by
  unfold pyListGet at h
  dsimp only at h
  repeat' split at h
  all_goals simp_all
  all_goals
    rw [← h]
    first
    | exact List.getElem_mem _ _ _
    | exact List.getElem_mem _

/-- An armed Kaernbach staircase's next() either returns a value or
raises StopIteration — never the usage error. -/
theorem kaernbach_next_armed (s : KaernbachStaircase) (h : s.updated = true) :
    (s.next).1 = .error QErr.stop ∨ ∃ v, (s.next).1 = .ok v := by
  simp only [KaernbachStaircase.next, h, Bool.not_true, Bool.false_eq_true, if_false]
  split
  · exact Or.inl rfl
  · exact Or.inr ⟨_, rfl⟩

/-- An armed MixedAdaptiveQueue over armed Kaernbach sub-queues never
raises the usage error from next(): the guard passes, the remaining
failure modes are ValueError (empty sub-queue list), IndexError,
StopIteration converted to NotImplementedError, or a successful
trial. -/
theorem maq_armed_next_no_usage (m : MixedAdaptiveQueue KaernbachStaircase)
    (hupd : m.updated = true) (hsubs : ∀ q ∈ m.sub_queues, q.updated = true)
    (r : ℕ → ℚ) (k : ℕ) :
    (MixedAdaptiveQueue.next (fun ks => ks.next) m r k).1 ≠ .error QErr.usage := by
  simp only [MixedAdaptiveQueue.next, hupd, Bool.not_true, Bool.false_eq_true, if_false]
  cases hpr : m.probabilities with
  | some p => simp [hpr]
  | none =>
      simp only [hpr]
      rcases hrr : pyRandrange ((m.sub_queues.length : ℤ)) (r k) with e1 | idx
      · simp only [hrr]
        simp [pyRandrange_error hrr]
      · simp only [hrr]
        rcases hlg : pyListGet m.sub_queues idx with e2 | sub
        · simp only [hlg]
          simp [pyListGet_error hlg]
        · simp only [hlg]
          have hq : sub.updated = true := hsubs sub (pyListGet_mem hlg)
          rcases hsn : sub.next with ⟨res, sub2⟩
          have harm := kaernbach_next_armed sub hq
          rw [hsn] at harm
          rcases harm with hstop | ⟨v, hok⟩
          · dsimp only at hstop
            rw [hstop]
            rcases hls : pyListSet m.sub_queues idx sub2 with e3 | qs
            · simp only [hls]
              simp [pyListSet_error hls]
            · simp only [hls]
              simp
          · dsimp only at hok
            rw [hok]
            rcases hls : pyListSet m.sub_queues idx sub2 with e3 | qs
            · simp only [hls]
              simp [pyListSet_error hls]
            · simp only [hls]
              simp

/-- C6: pickling a procedure and loading it back through
PersistentBase.load reproduces the procedure with every stored field
unchanged except that on_load re-arms `updated = true`, for each of the
four adaptive procedures.  KaernbachStaircase's hook touches nothing
else; DoubleStaircase's also clears the pending-trial dict (empty at
every save point); DoubleStaircaseReinforced's also resets `last_probe`
and re-runs the inner staircase's hook (both no-ops at save points,
where the last update has cleared them and re-armed the inner flag);
MixedAdaptiveQueue — the class actually mixed with PersistentBase —
additionally re-arms every sub-queue, a no-op at save points where each
sub-queue is already re-armed.  The first next() after a load passes
the updated-flag guard: stated for the Kaernbach staircase and for the
reloaded MixedAdaptiveQueue, which never raises the usage error. -/
theorem persist_roundtrip_reloads_state
    (s : KaernbachStaircase) (d : DoubleStaircase) (hd : d.trial = none)
    (e : DoubleStaircaseReinforced) (he1 : e.last_probe = false)
    (he2 : e.dblstaircase.trial = none) (he3 : e.dblstaircase.updated = true)
    (m : MixedAdaptiveQueue KaernbachStaircase)
    (hm : ∀ q ∈ m.sub_queues, q.updated = true) :
    (PersistentBase.load KaernbachStaircase.on_load (PersistentBase.save s)
        = { s with updated := true }
      ∧ (PersistentBase.load KaernbachStaircase.on_load (PersistentBase.save s)).next.1
          ≠ .error QErr.usage)
    ∧ PersistentBase.load DoubleStaircase.on_load (PersistentBase.save d)
        = { d with updated := true }
    ∧ PersistentBase.load DoubleStaircaseReinforced.on_load (PersistentBase.save e)
        = { e with updated := true }
    ∧ (PersistentBase.load (MixedAdaptiveQueue.on_load KaernbachStaircase.on_load)
          (PersistentBase.save m)
        = { m with updated := true }
      ∧ ∀ (r : ℕ → ℚ) (k : ℕ),
          (MixedAdaptiveQueue.next (fun ks => ks.next)
            (PersistentBase.load (MixedAdaptiveQueue.on_load KaernbachStaircase.on_load)
              (PersistentBase.save m)) r k).1 ≠ .error QErr.usage) := by
  have hmapeq : m.sub_queues.map KaernbachStaircase.on_load = m.sub_queues := by
    have hcong : ∀ q ∈ m.sub_queues, KaernbachStaircase.on_load q = q := by
      intro q hq
      have hqu := hm q hq
      cases q
      simp_all [KaernbachStaircase.on_load]
    calc m.sub_queues.map KaernbachStaircase.on_load
        = m.sub_queues.map (fun q => q) := List.map_congr_left hcong
      _ = m.sub_queues := List.map_id' m.sub_queues
  have hmaq : PersistentBase.load (MixedAdaptiveQueue.on_load KaernbachStaircase.on_load)
      (PersistentBase.save m) = { m with updated := true } := by
    simp only [PersistentBase.load, PersistentBase.save, MixedAdaptiveQueue.on_load]
    rw [hmapeq]
  refine ⟨⟨rfl, ?_⟩, ?_, ?_, hmaq, ?_⟩
  · simp only [PersistentBase.load, PersistentBase.save, KaernbachStaircase.on_load,
      KaernbachStaircase.next, Bool.not_true, Bool.false_eq_true, if_false]
    split <;> simp
  · simp only [PersistentBase.load, PersistentBase.save, DoubleStaircase.on_load,
      DoubleStaircase.no_response]
    cases d
    simp_all
  · simp only [PersistentBase.load, PersistentBase.save,
      DoubleStaircaseReinforced.on_load, DoubleStaircase.on_load,
      DoubleStaircase.no_response]
    cases e with
    | mk u db st pr sl lp =>
        cases db
        simp_all
  · intro r k
    rw [hmaq]
    exact maq_armed_next_no_usage { m with updated := true } rfl hm r k

/-- Witness for C6: the concrete staircases KSex, DSex, DSRex4 and a
fresh one-sub-queue mixed queue all round-trip through save/load with
only the `updated` flag re-armed. -/
theorem persist_roundtrip_reloads_state_witness :
    DSex.trial = none
    ∧ DSRex4.last_probe = false
    ∧ DSRex4.dblstaircase.trial = none
    ∧ DSRex4.dblstaircase.updated = true
    ∧ PersistentBase.load KaernbachStaircase.on_load (PersistentBase.save KSex)
        = { KSex with updated := true }
    ∧ PersistentBase.load DoubleStaircase.on_load (PersistentBase.save DSex)
        = { DSex with updated := true }
    ∧ PersistentBase.load DoubleStaircaseReinforced.on_load (PersistentBase.save DSRex4)
        = { DSRex4 with updated := true }
    ∧ PersistentBase.load (MixedAdaptiveQueue.on_load KaernbachStaircase.on_load)
          (PersistentBase.save (MixedAdaptiveQueue.init [KSex] none).1)
        = { (MixedAdaptiveQueue.init [KSex] none).1 with updated := true } := by
  have hm : ∀ q ∈ (MixedAdaptiveQueue.init [KSex] none).1.sub_queues,
      q.updated = true := by
    intro q hq
    simp only [MixedAdaptiveQueue.init, List.mem_singleton] at hq
    subst hq
    rfl
  have h := persist_roundtrip_reloads_state KSex DSex rfl DSRex4 rfl rfl rfl
    (MixedAdaptiveQueue.init [KSex] none).1 hm
  exact ⟨rfl, rfl, rfl, rfl, h.1.1, h.2.1, h.2.2.1, h.2.2.2.1⟩

/-- Outcomes of one np.random.choice call: a well-formed probability
vector (right length, no negative entry) yields an item of the list, a
malformed one raises ValueError. -/
theorem np_random_choice_spec {α : Type} (items : List α) (ws : List ℚ)
    (j : ℕ) (h : items.length ≠ 0) :
    ((ws.length = items.length ∧ ∀ w ∈ ws, 0 ≤ w) →
        ∃ a, np_random_choice items ws j h = .ok a ∧ a ∈ items)
    ∧ (¬ (ws.length = items.length ∧ ∀ w ∈ ws, 0 ≤ w) →
        np_random_choice items ws j h = .error QErr.valueError) := by
  constructor
  · intro hv
    unfold np_random_choice
    rw [if_pos hv]
    exact ⟨_, rfl, List.get_mem _ _ _⟩
  · intro hv
    unfold np_random_choice
    rw [if_neg hv]

/-- Counterexample for C8: with the non-empty item list [1, 2, 3] and
the caller-supplied weights [1, 2] (wrong length), construction
succeeds — the emptiness check and the normalization pass — but the
first draw raises ValueError from np.random.choice, so an error IS
raised with a non-empty item list, refuting the no-error half of the
claim. -/
theorem random_queue_malformed_weights_counterexample :
    Except.map (fun p => p.2 0)
        (random_queue [(1 : ℕ), 2, 3] (some [(1 : ℚ), 2]) none (fun _ => 0))
      = .ok (some (.error QErr.valueError)) := by
  norm_num [random_queue, np_random_choice, Except.map]

/-- C8 amended: the weighted-with-replacement sampling policy rejects an
empty item list with ValueError before any draw is produced, and with a
non-empty item list that input error never fires at construction.
Construction is not error-free for every weight vector, though: a
non-empty caller-supplied weight list summing to 0 raises
ZeroDivisionError during normalization, and when the normalized weight
vector is malformed (wrong length or a negative entry) every attempted
draw raises ValueError from np.random.choice; with a well-formed
vector — in particular the default uniform weights — every draw
succeeds and yields an item of the list. -/
theorem random_queue_weight_checks {α : Type} (items : List α)
    (weights : Option (List ℚ)) (max_items : Option ℕ) (pick : ℕ → ℕ) :
    (items = [] → random_queue items weights max_items pick = .error QErr.valueError)
    ∧ (items ≠ [] → random_queue items weights max_items pick ≠ .error QErr.valueError)
    ∧ (items ≠ [] → ∀ ws0, weights = some ws0 → ws0 ≠ [] → ws0.sum = 0 →
        random_queue items weights max_items pick = .error QErr.zeroDivisionError)
    ∧ (∀ ws stream, random_queue items weights max_items pick = .ok (ws, stream) →
        ∀ ii e, stream ii = some e →
          ((ws.length = items.length ∧ ∀ w ∈ ws, 0 ≤ w) →
              ∃ a, e = .ok a ∧ a ∈ items)
          ∧ (¬ (ws.length = items.length ∧ ∀ w ∈ ws, 0 ≤ w) →
              e = .error QErr.valueError))
    ∧ (items ≠ [] → weights = none →
        ∀ ws stream, random_queue items weights max_items pick = .ok (ws, stream) →
          ∀ ii e, stream ii = some e → ∃ a, e = .ok a ∧ a ∈ items) := by
  have hfour : ∀ ws stream,
      random_queue items weights max_items pick = .ok (ws, stream) →
      ∀ ii e, stream ii = some e →
        ((ws.length = items.length ∧ ∀ w ∈ ws, 0 ≤ w) →
            ∃ a, e = .ok a ∧ a ∈ items)
        ∧ (¬ (ws.length = items.length ∧ ∀ w ∈ ws, 0 ≤ w) →
            e = .error QErr.valueError) := by
    intro ws stream hok ii e hii
    by_cases hl : items.length = 0
    · unfold random_queue at hok
      rw [dif_pos hl] at hok
      simp at hok
    · have hcore : np_random_choice items ws (pick ii) hl = e →
          ((ws.length = items.length ∧ ∀ w ∈ ws, 0 ≤ w) →
              ∃ a, e = .ok a ∧ a ∈ items)
          ∧ (¬ (ws.length = items.length ∧ ∀ w ∈ ws, 0 ≤ w) →
              e = .error QErr.valueError) := by
        intro h2
        constructor
        · intro hv
          obtain ⟨a, ha, hm⟩ := (np_random_choice_spec items ws (pick ii) hl).1 hv
          refine ⟨a, ?_, hm⟩
          rw [← h2, ha]
        · intro hv
          rw [← h2, (np_random_choice_spec items ws (pick ii) hl).2 hv]
      unfold random_queue at hok
      rw [dif_neg hl] at hok
      dsimp only at hok
      cases weights with
      | none =>
          dsimp only at hok
          rw [Except.ok.injEq, Prod.mk.injEq] at hok
          obtain ⟨hws, hstr⟩ := hok
          subst hstr
          dsimp only at hii
          rw [hws] at hii
          cases max_items with
          | some m =>
              dsimp only at hii
              by_cases him : ii < m
              · rw [if_pos him, Option.some.injEq] at hii
                exact hcore hii
              · rw [if_neg him] at hii
                simp at hii
          | none =>
              dsimp only at hii
              rw [Option.some.injEq] at hii
              exact hcore hii
      | some ws0 =>
          dsimp only at hok
          split at hok
          · simp at hok
          · rw [Except.ok.injEq, Prod.mk.injEq] at hok
            obtain ⟨hws, hstr⟩ := hok
            subst hstr
            dsimp only at hii
            rw [hws] at hii
            cases max_items with
            | some m =>
                dsimp only at hii
                by_cases him : ii < m
                · rw [if_pos him, Option.some.injEq] at hii
                  exact hcore hii
                · rw [if_neg him] at hii
                  simp at hii
            | none =>
                dsimp only at hii
                rw [Option.some.injEq] at hii
                exact hcore hii
  refine ⟨?_, ?_, ?_, hfour, ?_⟩
  · intro h
    subst h
    rfl
  · intro h
    have hl : ¬ items.length = 0 := fun hc => h (List.length_eq_zero.mp hc)
    unfold random_queue
    rw [dif_neg hl]
    dsimp only
    cases weights with
    | none => simp
    | some ws0 =>
        dsimp only
        split <;> simp
  · intro h ws0 hw hne hsum
    subst hw
    have hl : ¬ items.length = 0 := fun hc => h (List.length_eq_zero.mp hc)
    unfold random_queue
    rw [dif_neg hl]
    dsimp only
    rw [if_pos ⟨fun hc => hne (List.length_eq_zero.mp hc), hsum⟩]
  · intro h hw ws stream hok ii e hii
    have hl : ¬ items.length = 0 := fun hc => h (List.length_eq_zero.mp hc)
    have hval : ws.length = items.length ∧ ∀ w ∈ ws, 0 ≤ w := by
      subst hw
      unfold random_queue at hok
      rw [dif_neg hl] at hok
      dsimp only at hok
      rw [Except.ok.injEq, Prod.mk.injEq] at hok
      rw [← hok.1]
      constructor
      · simp
      · intro w hwmem
        rw [List.eq_of_mem_replicate hwmem]
        positivity
    exact (hfour ws stream hok ii e hii).1 hval

/-- Witness for C8 (amended): the empty list is rejected with
ValueError, a one-item list passes the input check without that error,
and a non-empty zero-sum weight list raises ZeroDivisionError at
construction. -/
theorem random_queue_weight_checks_witness :
    random_queue ([] : List ℕ) none none (fun _ => 0) = .error QErr.valueError
    ∧ random_queue [7] none (some 2) (fun _ => 0) ≠ .error QErr.valueError
    ∧ random_queue [7] (some [(1 : ℚ), -1]) none (fun _ => 0)
        = .error QErr.zeroDivisionError := by
  refine ⟨(random_queue_weight_checks ([] : List ℕ) none none (fun _ => 0)).1 rfl,
    (random_queue_weight_checks [7] none (some 2) (fun _ => 0)).2.1 (by decide),
    (random_queue_weight_checks [7] (some [(1 : ℚ), -1]) none (fun _ => 0)).2.2.1
      (by decide) [(1 : ℚ), -1] rfl (by decide) ?_⟩
  norm_num [List.sum_cons, List.sum_nil]

/-- Buffer/consumed invariant of every reachable BaseHandler state. -/
theorem BaseHandler.reachable_inv {α : Type} (h : BaseHandler α)
    (hr : BaseHandler.Reachable h) :
    h.ondeck = none ↔ h.consumed = true := by
  induction hr with
  | init items h0 heq =>
      cases items with
      | nil => simp [BaseHandler.init] at heq
      | cons a rest =>
          simp only [BaseHandler.init, Except.ok.injEq] at heq
          subst heq
          simp
  | step h1 h2 x hr1 heq ih =>
      cases h1 with
      | mk q c od =>
          cases od with
          | none => simp [BaseHandler.next] at heq
          | some item =>
              cases q with
              | nil =>
                  simp only [BaseHandler.next, Prod.mk.injEq, Except.ok.injEq] at heq
                  rw [← heq.2]
                  simp
              | cons y rest =>
                  simp only [BaseHandler.next, Prod.mk.injEq, Except.ok.injEq] at heq
                  rw [← heq.2]
                  simp at ih
                  simp [ih]

/-- C7: every reachable BaseHandler state has an empty lookahead buffer
exactly when `consumed` is set; the pull during which the underlying
queue runs out still returns the buffered item while setting `consumed`
and emptying `on_deck`, and only the following pull raises
StopIteration. -/
theorem basehandler_ondeck_iff_consumed {α : Type} (h : BaseHandler α)
    (hr : BaseHandler.Reachable h) :
    (h.ondeck = none ↔ h.consumed = true)
    ∧ (∀ x : α, h.ondeck = some x → h.queue = [] →
        h.next = (.ok x, ⟨[], true, none⟩)
        ∧ (BaseHandler.next (⟨[], true, none⟩ : BaseHandler α)).1 = .error QErr.stop) := by
  refine ⟨BaseHandler.reachable_inv h hr, ?_⟩
  intro x hx hq
  constructor
  · cases h
    simp_all [BaseHandler.next]
  · rfl

/-- Witness for C7: a freshly constructed two-item handler satisfies
the buffer/consumed invariant and drains as described. -/
theorem basehandler_ondeck_iff_consumed_witness :
    ((⟨[], false, some 5⟩ : BaseHandler ℕ).ondeck = none
        ↔ (⟨[], false, some 5⟩ : BaseHandler ℕ).consumed = true)
    ∧ (BaseHandler.next (⟨[], false, some 5⟩ : BaseHandler ℕ)
        = (.ok 5, ⟨[], true, none⟩)) := by
  have hr : BaseHandler.Reachable (⟨[], false, some 5⟩ : BaseHandler ℕ) :=
    BaseHandler.Reachable.init [5] _ rfl
  have h := basehandler_ondeck_iff_consumed _ hr
  exact ⟨h.1, (h.2 5 rfl rfl).1⟩

/-- Counterexample for C9: in MBHex, block "A" holds a single trial.
The first call on "A" returns index 1; the second call on "A" raises
StopIteration but has already incremented the shared counter; the
following call on "B" therefore returns index 3.  The indices of the
returned trials are 1, 3 — not increasing by exactly 1 as the claim
states. -/
theorem mixedblock_index_gap_counterexample :
    (MBHex.next_trial "A").1 = .ok ⟨10, 1⟩
    ∧ ((MBHex.next_trial "A").2.next_trial "A").1 = .error QErr.stop
    ∧ (((MBHex.next_trial "A").2.next_trial "A").2.next_trial "B").1 = .ok ⟨20, 3⟩ :=
  ⟨rfl, rfl, rfl⟩

/-- Per-call counter behavior of next_trial: the handler-global counter
always advances by exactly 1 (even when the call raises), and a
successful call stamps the returned trial with the advanced counter. -/
theorem MixedBlockHandler.next_trial_step {α : Type} (h : MixedBlockHandler α)
    (name : String) :
    (h.next_trial name).2.trial_index = h.trial_index + 1
    ∧ (∀ t : Trial α, (h.next_trial name).1 = .ok t → t.index = h.trial_index + 1) := by
  unfold MixedBlockHandler.next_trial
  dsimp only
  split <;> simp_all

/-- C9 amended: every next_trial call — successful or raising —
advances the single handler-global counter by exactly 1, a successful
call stamps the returned trial with the advanced counter, and across
any run of calls that all succeed the returned indices are consecutive:
`trial_index + 1, ..., trial_index + n` (so `1, 2, ..., n` from a reset
state).  A raising call (exhausted block or unknown name) still
consumes a counter value, leaving a gap in the indices of the returned
trials. -/
theorem mixedblock_global_index_amended {α : Type} (h : MixedBlockHandler α)
    (name : String) (names : List String) :
    ((h.next_trial name).2.trial_index = h.trial_index + 1)
    ∧ (∀ t : Trial α, (h.next_trial name).1 = .ok t → t.index = h.trial_index + 1)
    ∧ (∀ l, h.runCalls names = some l
          → l = List.range' (h.trial_index + 1) names.length) := by
  refine ⟨(MixedBlockHandler.next_trial_step h name).1,
    (MixedBlockHandler.next_trial_step h name).2, ?_⟩
  induction names generalizing h with
  | nil =>
      intro l hl
      simp only [MixedBlockHandler.runCalls, Option.some.injEq] at hl
      rw [← hl]
      rfl
  | cons nm rest ih =>
      intro l hl
      simp only [MixedBlockHandler.runCalls] at hl
      rcases hnt : h.next_trial nm with ⟨res, h1⟩
      rw [hnt] at hl
      cases res with
      | error e => simp at hl
      | ok t =>
          dsimp only at hl
          rcases hr0 : h1.runCalls rest with _ | l1
          · rw [hr0] at hl
            simp at hl
          · rw [hr0] at hl
            simp at hl
            have hstep := MixedBlockHandler.next_trial_step h nm
            have hidx : t.index = h.trial_index + 1 := by
              apply hstep.2
              rw [hnt]
            have htrial : h1.trial_index = h.trial_index + 1 := by
              have h2 := hstep.1
              rw [hnt] at h2
              exact h2
            have hrest := ih h1 l1 hr0
            rw [← hl, hrest, htrial, hidx]
            simp [List.length_cons, List.range'_succ]

/-- Witness for C9 (amended): three successful interleaved calls on
MBHex return exactly the indices [1, 2, 3]. -/
theorem mixedblock_global_index_amended_witness :
    MBHex.runCalls ["A", "B", "B"] = some [1, 2, 3]
    ∧ [1, 2, 3] = List.range' (MBHex.trial_index + 1) 3 := by
  constructor
  · decide
  · exact (mixedblock_global_index_amended MBHex "A" ["A", "B", "B"]).2.2
      [1, 2, 3] (by decide)

/-- Reading position `l.length` of `l ++ [a]` yields `a`. -/
theorem get_append_length {α : Type} (l : List α) (a : α)
    (h : l.length < (l ++ [a]).length) :
    (l ++ [a]).get ⟨l.length, h⟩ = a := by
  induction l with
  | nil => rfl
  | cons x xs ih => exact ih (by simp)

/-- Setting position `l.length` of `l ++ [a]` replaces `a`. -/
theorem set_append_length {α : Type} (l : List α) (a b : α) :
    (l ++ [a]).set l.length b = l ++ [b] := by
  induction l with
  | nil => rfl
  | cons x xs ih =>
      show x :: ((xs ++ [a]).set xs.length b) = x :: (xs ++ [b])
      rw [ih]

/-- Python `l[-1]` on a non-empty list is its last element. -/
theorem pyListGet_neg_one {α : Type} (l : List α) (a : α) :
    pyListGet (l ++ [a]) (-1) = .ok a := by
  have hj : (if (-1 : ℤ) < 0 then (-1 : ℤ) + ((l ++ [a]).length : ℤ) else (-1 : ℤ))
      = (l.length : ℤ) := by simp
  unfold pyListGet
  dsimp only
  simp only [hj]
  split
  · congr 1
    exact get_append_length l a (by simp)
  · rename_i hcond
    exact absurd ⟨Int.natCast_nonneg _, by simp⟩ hcond

/-- Python `l[-1] = b` on a non-empty list replaces its last element. -/
theorem pyListSet_neg_one {α : Type} (l : List α) (a b : α) :
    pyListSet (l ++ [a]) (-1) b = .ok (l ++ [b]) := by
  have hj : (if (-1 : ℤ) < 0 then (-1 : ℤ) + ((l ++ [a]).length : ℤ) else (-1 : ℤ))
      = (l.length : ℤ) := by simp
  unfold pyListSet
  dsimp only
  simp only [hj]
  split
  · congr 1
    exact set_append_length l a b
  · rename_i hcond
    exact absurd ⟨Int.natCast_nonneg _, by simp⟩ hcond

/-- C10: on a MixedAdaptiveQueue whose `sub_queue_idx` is still the
constructor's -1 (no next() has ever succeeded), update() raises no
usage error: it sets `updated`, silently forwards the outcome to the
LAST sub-procedure via Python negative indexing, stores the mutated
sub-procedure back, and re-saves — the written snapshot being the new
state itself. -/
theorem mixedadaptive_update_fresh_targets_last {σ : Type}
    (subUpd : σ → Bool → Bool → (Except QErr Unit) × σ)
    (s : MixedAdaptiveQueue σ) (front : List σ) (last sub2 : σ)
    (correct no_resp : Bool)
    (hidx : s.sub_queue_idx = -1)
    (hq : s.sub_queues = front ++ [last])
    (hupd : subUpd last correct no_resp = (.ok (), sub2)) :
    MixedAdaptiveQueue.update subUpd s correct no_resp
      = (.ok (),
          { s with updated := true, sub_queues := front ++ [sub2] },
          some { s with updated := true, sub_queues := front ++ [sub2] }) := by
  simp only [MixedAdaptiveQueue.update, hidx, hq, pyListGet_neg_one, hupd,
    pyListSet_neg_one]

/-- Witness for C10: a fresh one-element mixed queue over a concrete
Kaernbach staircase accepts an update before any next(), mutating that
staircase and re-saving. -/
theorem mixedadaptive_update_fresh_targets_last_witness :
    MixedAdaptiveQueue.update (fun ks c n => (.ok (), KaernbachStaircase.update ks c n))
        (MixedAdaptiveQueue.init [KSex] none).1 true false
      = (.ok (),
          { (MixedAdaptiveQueue.init [KSex] none).1 with
              updated := true, sub_queues := [KSex.update true false] },
          some { (MixedAdaptiveQueue.init [KSex] none).1 with
              updated := true, sub_queues := [KSex.update true false] }) :=
  mixedadaptive_update_fresh_targets_last
    (fun ks c n => (.ok (), KaernbachStaircase.update ks c n))
    (MixedAdaptiveQueue.init [KSex] none).1 [] KSex (KSex.update true false)
    true false rfl rfl rfl

/-- C3 (code defect, evaluated): DSRex has a converged inner staircase
(bracket [0, 1], gap 1).  On a next() whose first draw selects the probe
branch, the inner staircase raises StopIteration; the handler catches
it, permanently zeroes `probe_rate` and recurses into next() — but
`updated` was already cleared on entry, so the recursive call raises
the usage error ("hasn't been updated since last trial") instead of
serving an easy trial.  The evaluation below exhibits exactly that:
result is the usage error, with `probe_rate` left at 0 and `updated`
left false. -/
theorem dsr_converged_recursion_raises_usage :
    (DoubleStaircaseReinforced.next 10 DSRex (fun _ => 1 / 100) 0).1
        = .error QErr.usage
    ∧ (DoubleStaircaseReinforced.next 10 DSRex (fun _ => 1 / 100) 0).2.1.probe_rate = 0
    ∧ (DoubleStaircaseReinforced.next 10 DSRex (fun _ => 1 / 100) 0).2.1.updated = false := by
  norm_num [DSRex, DoubleStaircaseReinforced.init, DoubleStaircase.init,
    DoubleStaircaseReinforced.next, DoubleStaircase.next]

/-- Evaluation of the easy branch of DoubleStaircaseReinforced.next:
when the procedure is updated, `sample_log` is false and the first draw
does not select a probe, the call draws a side coin and serves a
uniform easy trial via randrange. -/
theorem DoubleStaircaseReinforced.next_easy (s : DoubleStaircaseReinforced)
    (fuel : ℕ) (r : ℕ → ℚ) (k : ℕ)
    (hupd : s.updated = true) (hsl : s.sample_log = false)
    (heasy : ¬ r k < s.probe_rate) :
    DoubleStaircaseReinforced.next (fuel + 1) s r k
      = (if r (k + 1) < 1 / 2 then
          match pyRandrange s.dblstaircase.low_idx (r (k + 2)) with
          | .error e => (.error e, { s with updated := false, last_probe := false }, k + 3)
          | .ok val =>
              match pyListGet s.stims val with
              | .ok name =>
                  (.ok ⟨"L", name⟩, { s with updated := false, last_probe := false }, k + 3)
              | .error e => (.error e, { s with updated := false, last_probe := false }, k + 3)
        else
          match pyRandrange ((s.stims.length : ℤ) - s.dblstaircase.high_idx) (r (k + 2)) with
          | .error e => (.error e, { s with updated := false, last_probe := false }, k + 3)
          | .ok rg =>
              match pyListGet s.stims (s.dblstaircase.high_idx + rg) with
              | .ok name =>
                  (.ok ⟨"R", name⟩, { s with updated := false, last_probe := false }, k + 3)
              | .error e => (.error e, { s with updated := false, last_probe := false }, k + 3)) := by
  simp only [DoubleStaircaseReinforced.next, hupd, hsl, Bool.not_true, Bool.false_eq_true,
    if_false]
  rw [if_neg heasy]

/-- Counterexample for C4: on the fresh DSRex4 (bracket [0, 3] over four
stimuli, `sample_log` false), an easy right trial with randrange draw 0
returns stimulus "d" — index 3, which IS the bracket's high_idx, not an
index strictly outside the bracket (the code adds `randrange(N - high)`
to `high_idx`, so the easy range is [high_idx, N), not (high_idx, N));
and an easy left trial raises ValueError because `randrange(0)` is an
empty range at the reachable bracket state low_idx = 0, contradicting
error-free production for every reachable bracket state. -/
theorem dsr_easy_trial_counterexample :
    (DoubleStaircaseReinforced.next 10 DSRex4 rEasyRight 0).1 = .ok ⟨"R", "d"⟩
    ∧ DSRex4.dblstaircase.high_idx = 3
    ∧ DSRex4.stims.get? 3 = some "d"
    ∧ (DoubleStaircaseReinforced.next 10 DSRex4 rEasyLeft 0).1 = .error QErr.valueError
    ∧ DSRex4.dblstaircase.low_idx = 0 := by
  refine ⟨?_, rfl, rfl, ?_, rfl⟩
  · rw [show (10 : ℕ) = 9 + 1 from rfl,
      DoubleStaircaseReinforced.next_easy DSRex4 9 rEasyRight 0 rfl rfl
        (by norm_num [rEasyRight, DSRex4, DoubleStaircaseReinforced.init])]
    rw [if_neg (by norm_num [rEasyRight])]
    norm_num [DSRex4, DoubleStaircaseReinforced.init, DoubleStaircase.init,
      pyRandrange, pyListGet, rEasyRight]
    rfl
  · rw [show (10 : ℕ) = 9 + 1 from rfl,
      DoubleStaircaseReinforced.next_easy DSRex4 9 rEasyLeft 0 rfl rfl
        (by norm_num [rEasyLeft, DSRex4, DoubleStaircaseReinforced.init])]
    rw [if_pos (by norm_num [rEasyLeft])]
    norm_num [DSRex4, DoubleStaircaseReinforced.init, DoubleStaircase.init,
      pyRandrange, rEasyLeft]

/-- In-bounds Python list read succeeds. -/
theorem pyListGet_ok_of_bounds {α : Type} (l : List α) (i : ℤ)
    (h0 : 0 ≤ i) (h1 : i < (l.length : ℤ)) :
    ∃ a, pyListGet l i = .ok a := by
  unfold pyListGet
  dsimp only
  have hw : (if i < 0 then i + (l.length : ℤ) else i) = i := if_neg (by omega)
  simp only [hw]
  exact ⟨_, dif_pos ⟨h0, h1⟩⟩

/-- C4 amended: a non-sample_log easy trial of
DoubleStaircaseReinforced, over stimuli 0..N-1 with bracket
[low_idx, high_idx]: when the left side is drawn the returned index is
uniform on [0, low_idx) — but when low_idx = 0 the trial raises
ValueError (randrange of an empty range) instead of being produced; and
when the right side is drawn the returned index is uniform on
[high_idx, N), which includes high_idx itself and is therefore not
strictly outside the bracket. -/
theorem dsr_easy_trial_ranges (s : DoubleStaircaseReinforced) (fuel : ℕ)
    (r : ℕ → ℚ) (k : ℕ)
    (hupd : s.updated = true) (hsl : s.sample_log = false)
    (heasy : ¬ r k < s.probe_rate)
    (hq0 : 0 ≤ r (k + 2)) (hq1 : r (k + 2) < 1)
    (hlow0 : 0 ≤ s.dblstaircase.low_idx)
    (hlh : s.dblstaircase.low_idx ≤ s.dblstaircase.high_idx)
    (hhi : s.dblstaircase.high_idx < (s.stims.length : ℤ)) :
    (r (k + 1) < 1 / 2 →
        (s.dblstaircase.low_idx = 0 →
            (DoubleStaircaseReinforced.next (fuel + 1) s r k).1 = .error QErr.valueError)
        ∧ (0 < s.dblstaircase.low_idx →
            ∃ name,
              (DoubleStaircaseReinforced.next (fuel + 1) s r k).1 = .ok ⟨"L", name⟩
              ∧ pyListGet s.stims (Int.floor (r (k + 2) * (s.dblstaircase.low_idx : ℚ)))
                  = .ok name
              ∧ 0 ≤ Int.floor (r (k + 2) * (s.dblstaircase.low_idx : ℚ))
              ∧ Int.floor (r (k + 2) * (s.dblstaircase.low_idx : ℚ))
                  < s.dblstaircase.low_idx))
    ∧ (¬ r (k + 1) < 1 / 2 →
        ∃ name,
          (DoubleStaircaseReinforced.next (fuel + 1) s r k).1 = .ok ⟨"R", name⟩
          ∧ pyListGet s.stims (s.dblstaircase.high_idx
                + Int.floor (r (k + 2)
                    * (((s.stims.length : ℤ) - s.dblstaircase.high_idx : ℤ) : ℚ)))
              = .ok name
          ∧ s.dblstaircase.high_idx
              ≤ s.dblstaircase.high_idx
                + Int.floor (r (k + 2)
                    * (((s.stims.length : ℤ) - s.dblstaircase.high_idx : ℤ) : ℚ))
          ∧ s.dblstaircase.high_idx
                + Int.floor (r (k + 2)
                    * (((s.stims.length : ℤ) - s.dblstaircase.high_idx : ℤ) : ℚ))
              < (s.stims.length : ℤ)) := by
  rw [DoubleStaircaseReinforced.next_easy s fuel r k hupd hsl heasy]
  constructor
  · intro hcoin
    rw [if_pos hcoin]
    constructor
    · intro hlz
      rw [hlz]
      simp [pyRandrange]
    · intro hlpos
      have hnp : ¬ s.dblstaircase.low_idx ≤ 0 := by omega
      have hlQ : (0 : ℚ) < (s.dblstaircase.low_idx : ℚ) := by exact_mod_cast hlpos
      have hfl0 : 0 ≤ Int.floor (r (k + 2) * (s.dblstaircase.low_idx : ℚ)) :=
        Int.floor_nonneg.mpr (mul_nonneg hq0 hlQ.le)
      have hflt : Int.floor (r (k + 2) * (s.dblstaircase.low_idx : ℚ))
          < s.dblstaircase.low_idx := by
        apply Int.floor_lt.mpr
        calc r (k + 2) * (s.dblstaircase.low_idx : ℚ)
            < 1 * (s.dblstaircase.low_idx : ℚ) := mul_lt_mul_of_pos_right hq1 hlQ
          _ = (s.dblstaircase.low_idx : ℚ) := one_mul _
      obtain ⟨name, hname⟩ := pyListGet_ok_of_bounds s.stims _ hfl0
        (lt_of_lt_of_le hflt (le_trans hlh hhi.le))
      refine ⟨name, ?_, hname, hfl0, hflt⟩
      simp only [pyRandrange, if_neg hnp, hname]
  · intro hcoin
    rw [if_neg hcoin]
    have hm : 0 < (s.stims.length : ℤ) - s.dblstaircase.high_idx := by omega
    have hnp : ¬ (s.stims.length : ℤ) - s.dblstaircase.high_idx ≤ 0 := by omega
    have hmQ : (0 : ℚ) < (((s.stims.length : ℤ) - s.dblstaircase.high_idx : ℤ) : ℚ) := by
      exact_mod_cast hm
    have hfl0 : 0 ≤ Int.floor (r (k + 2)
        * (((s.stims.length : ℤ) - s.dblstaircase.high_idx : ℤ) : ℚ)) :=
      Int.floor_nonneg.mpr (mul_nonneg hq0 hmQ.le)
    have hflt : Int.floor (r (k + 2)
          * (((s.stims.length : ℤ) - s.dblstaircase.high_idx : ℤ) : ℚ))
        < (s.stims.length : ℤ) - s.dblstaircase.high_idx := by
      apply Int.floor_lt.mpr
      push_cast
      calc r (k + 2) * ((s.stims.length : ℚ) - (s.dblstaircase.high_idx : ℚ))
          < 1 * ((s.stims.length : ℚ) - (s.dblstaircase.high_idx : ℚ)) := by
            apply mul_lt_mul_of_pos_right hq1
            push_cast at hmQ
            exact hmQ
        _ = _ := one_mul _
    obtain ⟨name, hname⟩ := pyListGet_ok_of_bounds s.stims
      (s.dblstaircase.high_idx + Int.floor (r (k + 2)
        * (((s.stims.length : ℤ) - s.dblstaircase.high_idx : ℤ) : ℚ)))
      (by omega) (by omega)
    refine ⟨name, ?_, hname, by omega, by omega⟩
    simp only [pyRandrange, if_neg hnp, hname]

/-- Witness for C4 (amended): on DSRex4 with the easy-right oracle the
returned easy index is in [high_idx, N) = [3, 4). -/
theorem dsr_easy_trial_ranges_witness :
    ∃ name,
      (DoubleStaircaseReinforced.next 10 DSRex4 rEasyRight 0).1 = .ok ⟨"R", name⟩
      ∧ pyListGet DSRex4.stims (DSRex4.dblstaircase.high_idx
            + Int.floor (rEasyRight 2
                * (((DSRex4.stims.length : ℤ) - DSRex4.dblstaircase.high_idx : ℤ) : ℚ)))
          = .ok name
      ∧ DSRex4.dblstaircase.high_idx
          ≤ DSRex4.dblstaircase.high_idx
            + Int.floor (rEasyRight 2
                * (((DSRex4.stims.length : ℤ) - DSRex4.dblstaircase.high_idx : ℤ) : ℚ))
      ∧ DSRex4.dblstaircase.high_idx
            + Int.floor (rEasyRight 2
                * (((DSRex4.stims.length : ℤ) - DSRex4.dblstaircase.high_idx : ℤ) : ℚ))
          < (DSRex4.stims.length : ℤ) :=
  (dsr_easy_trial_ranges DSRex4 9 rEasyRight 0 rfl rfl
      (by norm_num [rEasyRight, DSRex4, DoubleStaircaseReinforced.init])
      (by norm_num [rEasyRight]) (by norm_num [rEasyRight])
      (by norm_num [DSRex4, DoubleStaircaseReinforced.init, DoubleStaircase.init])
      (by norm_num [DSRex4, DoubleStaircaseReinforced.init, DoubleStaircase.init])
      (by norm_num [DSRex4, DoubleStaircaseReinforced.init, DoubleStaircase.init])).2
    (by norm_num [rEasyRight])


theorem DoubleStaircase.next_stop_eq (s : DoubleStaircase) (r : ℕ → ℚ) (k : ℕ)
    (hupd : s.updated = true) (hgap : s.high_idx - s.low_idx ≤ 1) :
    s.next r k = (.error QErr.stop, { s with updated := false }, k) := by
  simp [DoubleStaircase.next, hupd, hgap]

theorem DoubleStaircase.delta_bounds (s : DoubleStaircase)
    (hgap : 1 < s.high_idx - s.low_idx)
    (hrc0 : 0 < s.rate_constant) (hrc1 : s.rate_constant ≤ 1) :
    1 ≤ s.delta ∧ s.delta ≤ s.high_idx - s.low_idx := by
  constructor
  · have hpos : (0 : ℚ) < ((s.high_idx - s.low_idx : ℤ) : ℚ) * s.rate_constant := by
      apply mul_pos _ hrc0
      exact_mod_cast (by omega : (0 : ℤ) < s.high_idx - s.low_idx)
    have h := Int.ceil_pos.mpr hpos
    unfold DoubleStaircase.delta
    omega
  · have hle : ((s.high_idx - s.low_idx : ℤ) : ℚ) * s.rate_constant
        ≤ ((s.high_idx - s.low_idx : ℤ) : ℚ) := by
      apply mul_le_of_le_one_right _ hrc1
      exact_mod_cast (by omega : (0 : ℤ) ≤ s.high_idx - s.low_idx)
    calc s.delta ≤ ⌈((s.high_idx - s.low_idx : ℤ) : ℚ)⌉ := Int.ceil_le_ceil hle
      _ = s.high_idx - s.low_idx := Int.ceil_intCast _

theorem DoubleStaircase.next_ok_eq (s : DoubleStaircase) (r : ℕ → ℚ) (k : ℕ)
    (hupd : s.updated = true) (hgap : 1 < s.high_idx - s.low_idx)
    (hlow : 0 ≤ s.low_idx) (hhi : s.high_idx < (s.stims.length : ℤ))
    (hrc0 : 0 < s.rate_constant) (hrc1 : s.rate_constant ≤ 1) :
    ∃ ret tr,
      s.next r k = (.ok ret, { s with updated := false, trial := some tr }, k + 1)
      ∧ (tr = (true, s.low_idx + s.delta)
          ∨ tr = (false, s.high_idx - s.delta)) := by
  obtain ⟨hd1, hd2⟩ := DoubleStaircase.delta_bounds s hgap hrc0 hrc1
  simp only [DoubleStaircase.next, hupd, Bool.not_true, Bool.false_eq_true, if_false]
  rw [if_neg (by omega : ¬ s.high_idx - s.low_idx ≤ 1)]
  simp only [DoubleStaircase.delta] at hd1 hd2 ⊢
  by_cases hc : r k < 1 / 2
  · rw [if_pos hc]
    obtain ⟨name, hname⟩ := pyListGet_ok_of_bounds s.stims
      (s.low_idx + Int.ceil (((s.high_idx - s.low_idx : ℤ) : ℚ) * s.rate_constant))
      (by omega) (by omega)
    rw [hname]
    exact ⟨⟨"L", name⟩, _, rfl, Or.inl rfl⟩
  · rw [if_neg hc]
    obtain ⟨name, hname⟩ := pyListGet_ok_of_bounds s.stims
      (s.high_idx - Int.ceil (((s.high_idx - s.low_idx : ℤ) : ℚ) * s.rate_constant))
      (by omega) (by omega)
    rw [hname]
    exact ⟨⟨"R", name⟩, _, rfl, Or.inr rfl⟩

/-- Bracket invariant of a DoubleStaircase threaded through correct
rounds: armed handshake, ordered in-range indices, rate constant in
(0, 1]. -/
def DoubleStaircase.Inv (s : DoubleStaircase) : Prop :=
  s.updated = true ∧ 0 ≤ s.low_idx ∧ s.low_idx ≤ s.high_idx
  ∧ s.high_idx < (s.stims.length : ℤ) ∧ 0 < s.rate_constant ∧ s.rate_constant ≤ 1

theorem DoubleStaircase.round_gap (s : DoubleStaircase) (r : ℕ → ℚ) (k : ℕ)
    (hinv : s.Inv) (hgap : 1 < s.high_idx - s.low_idx) :
    ∃ ret s1 s2,
      s.next r k = (.ok ret, s1, k + 1)
      ∧ s1.update true false = (.ok (), s2)
      ∧ s2.Inv
      ∧ s2.high_idx - s2.low_idx = (s.high_idx - s.low_idx) - s.delta
      ∧ 1 ≤ s.delta := by
  obtain ⟨hupd, hlow, hlh, hhi, hrc0, hrc1⟩ := hinv
  obtain ⟨hd1, hd2⟩ := DoubleStaircase.delta_bounds s hgap hrc0 hrc1
  obtain ⟨ret, tr, hnext, htr⟩ :=
    DoubleStaircase.next_ok_eq s r k hupd hgap hlow hhi hrc0 hrc1
  cases htr with
  | inl h =>
      subst h
      refine ⟨ret, _,
        { s with updated := true, low_idx := s.low_idx + s.delta, trial := none },
        hnext, rfl, ⟨rfl, ?_, ?_, ?_, hrc0, hrc1⟩, ?_, hd1⟩
      · show 0 ≤ s.low_idx + s.delta
        omega
      · show s.low_idx + s.delta ≤ s.high_idx
        omega
      · show s.high_idx < (s.stims.length : ℤ)
        exact hhi
      · show s.high_idx - (s.low_idx + s.delta) = (s.high_idx - s.low_idx) - s.delta
        omega
  | inr h =>
      subst h
      refine ⟨ret, _,
        { s with updated := true, high_idx := s.high_idx - s.delta, trial := none },
        hnext, rfl, ⟨rfl, ?_, ?_, ?_, hrc0, hrc1⟩, ?_, hd1⟩
      · show 0 ≤ s.low_idx
        exact hlow
      · show s.low_idx ≤ s.high_idx - s.delta
        omega
      · show s.high_idx - s.delta < (s.stims.length : ℤ)
        omega
      · show (s.high_idx - s.delta) - s.low_idx = (s.high_idx - s.low_idx) - s.delta
        omega

theorem DoubleStaircase.runCorrect_gap (r : ℕ → ℚ) :
    ∀ (n : ℕ) (s : DoubleStaircase) (k : ℕ), s.Inv →
      s.high_idx - s.low_idx ≤ 1 + n →
      (DoubleStaircase.runCorrect r n (s, k)).1.high_idx
        - (DoubleStaircase.runCorrect r n (s, k)).1.low_idx ≤ 1 := by
  intro n
  induction n with
  | zero =>
      intro s k hinv hle
      simp only [DoubleStaircase.runCorrect]
      omega
  | succ n ih =>
      intro s k hinv hle
      by_cases hgap : s.high_idx - s.low_idx ≤ 1
      · have hst := DoubleStaircase.next_stop_eq s r k hinv.1 hgap
        simp only [DoubleStaircase.runCorrect, hst]
        simpa using hgap
      · push_neg at hgap
        obtain ⟨ret, s1, s2, hnext, hupd2, hinv2, hgap2, hd1⟩ :=
          DoubleStaircase.round_gap s r k hinv (by omega)
        simp only [DoubleStaircase.runCorrect, hnext, hupd2]
        apply ih s2 (k + 1) hinv2
        omega

/-- C2: for a DoubleStaircase in any armed state with
`low_idx < high_idx`, in-range indices and rate constant in (0, 1]:
next() raises StopIteration exactly when `high_idx - low_idx <= 1`
(never earlier — with a wider gap it returns a probe trial); a correct
update() following any successful next() moves the probed bound inward
by `delta = ceil(rate_constant * (high_idx - low_idx)) >= 1`, strictly
shrinking the gap; and repeated correct rounds reach a gap of at most 1
after at most `gap - 1` trials. -/
theorem doublestaircase_bisection_converges
    (s : DoubleStaircase) (r : ℕ → ℚ) (k : ℕ)
    (hupd : s.updated = true) (hlow : 0 ≤ s.low_idx)
    (hlh : s.low_idx < s.high_idx) (hhi : s.high_idx < (s.stims.length : ℤ))
    (hrc0 : 0 < s.rate_constant) (hrc1 : s.rate_constant ≤ 1) :
    ((s.next r k).1 = .error QErr.stop ↔ s.high_idx - s.low_idx ≤ 1)
    ∧ (∀ ret s1 k1, s.next r k = (.ok ret, s1, k1) →
        ∃ s2, s1.update true false = (.ok (), s2)
          ∧ 1 ≤ s.delta
          ∧ s2.high_idx - s2.low_idx = (s.high_idx - s.low_idx) - s.delta
          ∧ s2.high_idx - s2.low_idx < s.high_idx - s.low_idx)
    ∧ (∀ n : ℕ, s.high_idx - s.low_idx ≤ 1 + (n : ℤ) →
        (DoubleStaircase.runCorrect r n (s, k)).1.high_idx
          - (DoubleStaircase.runCorrect r n (s, k)).1.low_idx ≤ 1) := by
  have hinv : s.Inv := ⟨hupd, hlow, by omega, hhi, hrc0, hrc1⟩
  refine ⟨⟨?_, ?_⟩, ?_, ?_⟩
  · intro hstop
    by_contra hgt
    push_neg at hgt
    obtain ⟨ret, tr, hnext, -⟩ :=
      DoubleStaircase.next_ok_eq s r k hupd (by omega) hlow hhi hrc0 hrc1
    rw [hnext] at hstop
    simp at hstop
  · intro hle
    rw [DoubleStaircase.next_stop_eq s r k hupd hle]
  · intro ret s1 k1 hnext
    by_cases hgap : s.high_idx - s.low_idx ≤ 1
    · rw [DoubleStaircase.next_stop_eq s r k hupd hgap] at hnext
      simp at hnext
    · obtain ⟨ret', s1', s2, hnext', hupd2, hinv2, hgap2, hd1⟩ :=
        DoubleStaircase.round_gap s r k hinv (by omega)
      rw [hnext] at hnext'
      rw [Prod.mk.injEq, Prod.mk.injEq] at hnext'
      obtain ⟨-, hs, -⟩ := hnext'
      rw [← hs] at hupd2
      refine ⟨s2, hupd2, hd1, hgap2, ?_⟩
      omega
  · intro n hle
    exact DoubleStaircase.runCorrect_gap r n s k hinv hle

/-- Witness for C2: the four-stimulus staircase DSex (gap 3, rate
constant 1/20) converges to an adjacent bracket within 2 correct
rounds. -/
theorem doublestaircase_bisection_converges_witness :
    DSex.high_idx - DSex.low_idx ≤ 1 + 2
    ∧ (DoubleStaircase.runCorrect (fun _ => 0) 2 (DSex, 0)).1.high_idx
        - (DoubleStaircase.runCorrect (fun _ => 0) 2 (DSex, 0)).1.low_idx ≤ 1 := by
  refine ⟨by norm_num [DSex, DoubleStaircase.init], ?_⟩
  exact (doublestaircase_bisection_converges DSex (fun _ => 0) 0
    rfl (by norm_num [DSex, DoubleStaircase.init])
    (by norm_num [DSex, DoubleStaircase.init])
    (by norm_num [DSex, DoubleStaircase.init])
    (by norm_num [DSex, DoubleStaircase.init])
    (by norm_num [DSex, DoubleStaircase.init])).2.2 2
    (by norm_num [DSex, DoubleStaircase.init])


theorem kaernbach_next_guard (s : KaernbachStaircase)
    (h : s.updated = false) : s.next = (.error QErr.usage, s) := by
  simp [KaernbachStaircase.next, h]

theorem kaernbach_next_ok_updated (s : KaernbachStaircase) (v : ℚ)
    (s1 : KaernbachStaircase) (h : s.next = (.ok v, s1)) : s1.updated = false := by
  cases hu : s.updated with
  | false =>
      rw [kaernbach_next_guard s hu] at h
      simp at h
  | true =>
      simp only [KaernbachStaircase.next, hu, Bool.not_true, Bool.false_eq_true,
        if_false] at h
      split at h
      · simp at h
      · rw [Prod.mk.injEq] at h
        obtain ⟨-, hs⟩ := h
        rw [← hs]

theorem kaernbach_update_updated (s : KaernbachStaircase) (c n : Bool) :
    (s.update c n).updated = true := by
  unfold KaernbachStaircase.update
  dsimp only
  repeat' split
  all_goals rfl

theorem dbl_next_guard (s : DoubleStaircase) (r : ℕ → ℚ) (k : ℕ)
    (h : s.updated = false) : s.next r k = (.error QErr.usage, s, k) := by
  simp [DoubleStaircase.next, h]

theorem dbl_next_ok_updated (s : DoubleStaircase) (r : ℕ → ℚ) (k : ℕ)
    (ret : TrialDict) (s1 : DoubleStaircase) (k1 : ℕ)
    (h : s.next r k = (.ok ret, s1, k1)) : s1.updated = false := by
  cases hu : s.updated with
  | false =>
      rw [dbl_next_guard s r k hu] at h
      simp at h
  | true =>
      simp only [DoubleStaircase.next, hu, Bool.not_true, Bool.false_eq_true,
        if_false] at h
      repeat' split at h
      all_goals
        first
        | (simp only [Prod.mk.injEq] at h
           obtain ⟨-, hs, -⟩ := h
           rw [← hs])

theorem dbl_update_updated (s : DoubleStaircase) (c n : Bool) :
    (s.update c n).2.updated = true := by
  unfold DoubleStaircase.update
  dsimp only
  repeat' split
  all_goals rfl

theorem dsr_next_guard (fuel : ℕ) (s : DoubleStaircaseReinforced)
    (r : ℕ → ℚ) (k : ℕ) (h : s.updated = false) :
    DoubleStaircaseReinforced.next (fuel + 1) s r k = (.error QErr.usage, s, k) := by
  simp [DoubleStaircaseReinforced.next, h]

theorem dsr_next_ok_updated :
    ∀ (fuel : ℕ) (s : DoubleStaircaseReinforced) (r : ℕ → ℚ) (k : ℕ)
      (ret : TrialDict) (s1 : DoubleStaircaseReinforced) (k1 : ℕ),
      DoubleStaircaseReinforced.next fuel s r k = (.ok ret, s1, k1) →
      s1.updated = false := by
  intro fuel
  induction fuel with
  | zero =>
      intro s r k ret s1 k1 h
      simp [DoubleStaircaseReinforced.next] at h
  | succ fuel ih =>
      intro s r k ret s1 k1 h
      cases hu : s.updated with
      | false =>
          rw [dsr_next_guard fuel s r k hu] at h
          simp at h
      | true =>
          simp only [DoubleStaircaseReinforced.next, hu, Bool.not_true,
            Bool.false_eq_true, if_false] at h
          repeat' split at h
          all_goals
            first
            | (exact ih _ _ _ _ _ _ h)
            | (simp only [Prod.mk.injEq] at h
               obtain ⟨-, hs, -⟩ := h
               rw [← hs])

theorem dsr_update_updated (s : DoubleStaircaseReinforced)
    (c n : Bool) : (s.update c n).2.updated = true := by
  unfold DoubleStaircaseReinforced.update
  dsimp only
  repeat' split
  all_goals rfl

theorem maq_next_guard {σ τ : Type}
    (subNext : σ → (Except QErr τ) × σ) (s : MixedAdaptiveQueue σ)
    (r : ℕ → ℚ) (k : ℕ) (h : s.updated = false) :
    MixedAdaptiveQueue.next subNext s r k = (.error QErr.usage, s, k) := by
  simp [MixedAdaptiveQueue.next, h]

theorem maq_next_ok_updated {σ τ : Type}
    (subNext : σ → (Except QErr τ) × σ) (s : MixedAdaptiveQueue σ)
    (r : ℕ → ℚ) (k : ℕ) (v : τ) (s1 : MixedAdaptiveQueue σ) (k1 : ℕ)
    (h : MixedAdaptiveQueue.next subNext s r k = (.ok v, s1, k1)) :
    s1.updated = false := by
  cases hu : s.updated with
  | false =>
      rw [maq_next_guard subNext s r k hu] at h
      simp at h
  | true =>
      simp only [MixedAdaptiveQueue.next, hu, Bool.not_true, Bool.false_eq_true,
        if_false] at h
      repeat' split at h
      all_goals
        first
        | (simp only [Prod.mk.injEq] at h
           obtain ⟨-, hs, -⟩ := h
           rw [← hs])

theorem maq_update_updated {σ : Type}
    (subUpd : σ → Bool → Bool → (Except QErr Unit) × σ)
    (s : MixedAdaptiveQueue σ) (c n : Bool) :
    (MixedAdaptiveQueue.update subUpd s c n).2.1.updated = true := by
  unfold MixedAdaptiveQueue.update
  dsimp only
  repeat' split
  all_goals rfl

/-- C1: for every adaptive procedure in the code (each AdaptiveBase
subclass: KaernbachStaircase, DoubleStaircase,
DoubleStaircaseReinforced, MixedAdaptiveQueue): next() raises the usage
error — leaving the state untouched — whenever the `updated` flag is
false; every successful next() leaves `updated` false; every update()
leaves `updated` true; consequently, after a successful next(), calling
next() again without an intervening update() raises the usage error,
and since the failed call does not change the state, calling it yet
again raises the same usage error — both times. -/
theorem adaptive_updated_handshake :
    (∀ s : KaernbachStaircase,
        (s.updated = false → s.next = (.error QErr.usage, s))
        ∧ (∀ v s1, s.next = (.ok v, s1) →
            s1.updated = false ∧ s1.next = (.error QErr.usage, s1))
        ∧ (∀ c n, (s.update c n).updated = true))
    ∧ (∀ (s : DoubleStaircase) (r : ℕ → ℚ) (k : ℕ),
        (s.updated = false → s.next r k = (.error QErr.usage, s, k))
        ∧ (∀ ret s1 k1, s.next r k = (.ok ret, s1, k1) →
            s1.updated = false
            ∧ ∀ (r2 : ℕ → ℚ) (k2 : ℕ), s1.next r2 k2 = (.error QErr.usage, s1, k2))
        ∧ (∀ c n, (s.update c n).2.updated = true))
    ∧ (∀ (fuel : ℕ) (s : DoubleStaircaseReinforced) (r : ℕ → ℚ) (k : ℕ),
        (s.updated = false →
            DoubleStaircaseReinforced.next (fuel + 1) s r k = (.error QErr.usage, s, k))
        ∧ (∀ ret s1 k1,
            DoubleStaircaseReinforced.next fuel s r k = (.ok ret, s1, k1) →
            s1.updated = false
            ∧ ∀ (f2 : ℕ) (r2 : ℕ → ℚ) (k2 : ℕ),
                DoubleStaircaseReinforced.next (f2 + 1) s1 r2 k2
                  = (.error QErr.usage, s1, k2))
        ∧ (∀ c n, (s.update c n).2.updated = true))
    ∧ (∀ (σ τ : Type) (subNext : σ → (Except QErr τ) × σ)
          (subUpd : σ → Bool → Bool → (Except QErr Unit) × σ)
          (s : MixedAdaptiveQueue σ) (r : ℕ → ℚ) (k : ℕ),
        (s.updated = false →
            MixedAdaptiveQueue.next subNext s r k = (.error QErr.usage, s, k))
        ∧ (∀ v s1 k1, MixedAdaptiveQueue.next subNext s r k = (.ok v, s1, k1) →
            s1.updated = false
            ∧ ∀ (r2 : ℕ → ℚ) (k2 : ℕ),
                MixedAdaptiveQueue.next subNext s1 r2 k2 = (.error QErr.usage, s1, k2))
        ∧ (∀ c n, (MixedAdaptiveQueue.update subUpd s c n).2.1.updated = true)) := by
  refine ⟨?_, ?_, ?_, ?_⟩
  · intro s
    refine ⟨kaernbach_next_guard s, ?_, kaernbach_update_updated s⟩
    intro v s1 h
    have h1 := kaernbach_next_ok_updated s v s1 h
    exact ⟨h1, kaernbach_next_guard s1 h1⟩
  · intro s r k
    refine ⟨dbl_next_guard s r k, ?_, dbl_update_updated s⟩
    intro ret s1 k1 h
    have h1 := dbl_next_ok_updated s r k ret s1 k1 h
    exact ⟨h1, fun r2 k2 => dbl_next_guard s1 r2 k2 h1⟩
  · intro fuel s r k
    refine ⟨dsr_next_guard fuel s r k, ?_,
      dsr_update_updated s⟩
    intro ret s1 k1 h
    have h1 := dsr_next_ok_updated fuel s r k ret s1 k1 h
    exact ⟨h1, fun f2 r2 k2 => dsr_next_guard f2 s1 r2 k2 h1⟩
  · intro σ τ subNext subUpd s r k
    refine ⟨maq_next_guard subNext s r k, ?_,
      maq_update_updated subUpd s⟩
    intro v s1 k1 h
    have h1 := maq_next_ok_updated subNext s r k v s1 k1 h
    exact ⟨h1, fun r2 k2 => maq_next_guard subNext s1 r2 k2 h1⟩

/-- Witness for C1: each of the four procedures raises the usage error
from an un-updated state without mutating it; a Kaernbach update
re-arms the flag; and after KSex's first successful next(), a repeated
next() raises the usage error while again leaving the state unchanged,
so a third call raises it too. -/
theorem adaptive_updated_handshake_witness :
    KaernbachStaircase.next { KSex with updated := false }
        = (.error QErr.usage, { KSex with updated := false })
    ∧ DoubleStaircase.next { DSex with updated := false } (fun _ => 0) 0
        = (.error QErr.usage, { DSex with updated := false }, 0)
    ∧ DoubleStaircaseReinforced.next 5 { DSRex4 with updated := false } (fun _ => 0) 0
        = (.error QErr.usage, { DSRex4 with updated := false }, 0)
    ∧ MixedAdaptiveQueue.next (fun ks : KaernbachStaircase => ks.next)
          { (MixedAdaptiveQueue.init [KSex] none).1 with updated := false } (fun _ => 0) 0
        = (.error QErr.usage,
            { (MixedAdaptiveQueue.init [KSex] none).1 with updated := false }, 0)
    ∧ (KSex.update true false).updated = true
    ∧ (∃ v s1, KSex.next = (.ok v, s1)
        ∧ s1.updated = false ∧ s1.next = (.error QErr.usage, s1)) := by
  refine ⟨(adaptive_updated_handshake.1 { KSex with updated := false }).1 rfl,
    (adaptive_updated_handshake.2.1 { DSex with updated := false } (fun _ => 0) 0).1 rfl,
    (adaptive_updated_handshake.2.2.1 4 { DSRex4 with updated := false } (fun _ => 0) 0).1 rfl,
    (adaptive_updated_handshake.2.2.2 KaernbachStaircase ℚ
        (fun ks : KaernbachStaircase => ks.next)
        (fun ks c n => (.ok (), KaernbachStaircase.update ks c n))
        { (MixedAdaptiveQueue.init [KSex] none).1 with updated := false } (fun _ => 0) 0).1 rfl,
    (adaptive_updated_handshake.1 KSex).2.2 true false, ?_⟩
  obtain ⟨h1, h2⟩ := (adaptive_updated_handshake.1 KSex).2.1 (KSex.next.2.val) KSex.next.2 rfl
  exact ⟨KSex.next.2.val, KSex.next.2, rfl, h1, h2⟩

end PyOperant
